import Mathlib

/-!
# Verification of the HireLens-AI resume scoring and matching pipeline

Shallow embedding of the pure computational core of the repository:

* `src/utils/skill_extractor.py` — `extract_skills`
* `src/utils/matcher.py` — `calculate_match_score`, `rank_resumes`
* `src/utils/ats_scorer.py` — `calculate_ats_score`
* `src/utils/pdf_parser.py` — `parse_pdf`, `clean_text`
* `src/utils/ai_feedback.py` — `get_ai_feedback`, `get_default_feedback`
* `src/models.py` — cascade-delete behaviour of the declared ORM relationships

Primitives whose behaviour lives in external libraries (spaCy noun chunks and
keyword mining, regex word-boundary search over the skill dictionaries, the
TF-IDF cosine similarity, the two PDF text extraction libraries, the LLM
calls) are passed in as oracle parameters; everything the Python functions
compute from those primitives is embedded exactly.  Python floats are
idealised as rationals; `round(x, 2)` is modelled by `round2`.
-/

/-- Python `round(x, 2)` idealised over `ℚ`: round `100 * x` to the nearest
integer and divide by `100` (tie behaviour at exact half-cents is irrelevant
to every claim proved below). -/
def round2 (x : ℚ) : ℚ := (round (x * 100) : ℤ) / 100

/-- Python `str.title()` (ASCII approximation): the first cased character of
each alphabetic run is uppercased and the rest lowercased.  The boolean
argument records whether the previous character was alphabetic. -/
def pyTitleGo : Bool → List Char → List Char
  | _, [] => []
  | prevAlpha, c :: cs =>
    (if c.isAlpha then (if prevAlpha then c.toLower else c.toUpper) else c)
      :: pyTitleGo c.isAlpha cs

/-- Python `str.title()`. -/
def pyTitle (s : String) : String := ⟨pyTitleGo false s.data⟩

/-- `needle` occurs as a contiguous sublist of the second argument
(Python `needle in haystack` on strings). -/
def listContainsSub (needle : List Char) : List Char → Bool
  | [] => needle.isEmpty
  | c :: rest => needle.isPrefixOf (c :: rest) || listContainsSub needle rest

/-- Python substring test `needle in hay`. -/
def strContains (hay needle : String) : Bool := listContainsSub needle.data hay.data

/-- `set(s.lower() for s in l)` — the lowercased skill set of a skill list. -/
def lowerSet (l : List String) : Finset String := (l.map String.toLower).toFinset

/-- `sorted(list(s))` on a set of strings: the sorted, duplicate-free
enumeration of a `Finset String`. -/
def sortStr (s : Finset String) : List String := s.sort (· ≤ ·)

/-!
## `src/utils/skill_extractor.py`, `extract_skills` (lines 70–148)

The regex word-boundary dictionary matches and the spaCy noun chunks are the
oracle inputs; `extract_skills` assembles them exactly as the source does.
-/

/-- Oracle results of the primitive text scans inside `extract_skills`:
which entries of `TECHNICAL_SKILLS` / `SOFT_SKILLS` / `TOOLS` had a
word-boundary regex match in `text.lower()` (lines 92–111), the strings
captured by the `programming_patterns` regexes (lines 121–138), and the
noun-chunk texts produced by spaCy (line 118). -/
structure SkillPrims where
  techMatched : Finset String
  softMatched : Finset String
  toolsMatched : Finset String
  patternMatched : Finset String
  nounChunks : List String

/-- Return value of `extract_skills`. -/
structure SkillsOut where
  all_skills : List String
  technical_skills : List String
  soft_skills : List String
  tools : List String
deriving DecidableEq

/-- `extract_skills` (skill_extractor.py lines 70–148).  The empty-text guard
is line 81; matched dictionary entries and pattern captures are titled
(`skill.title()`, `match.title()`); the spaCy noun chunks are computed at
line 118 and — exactly as in the source — never used afterwards. -/
def extract_skills (text : String) (p : SkillPrims) : SkillsOut :=
  if text = "" then
    { all_skills := [], technical_skills := [], soft_skills := [], tools := [] }
  else
    let technical_found : Finset String :=
      p.techMatched.image pyTitle ∪ p.patternMatched.image pyTitle
    let soft_found : Finset String := p.softMatched.image pyTitle
    let tools_found : Finset String := p.toolsMatched.image pyTitle
    let _noun_chunks : List String := p.nounChunks.map String.toLower
    let all_skills : Finset String := technical_found ∪ soft_found ∪ tools_found
    { all_skills := sortStr all_skills
      technical_skills := sortStr technical_found
      soft_skills := sortStr soft_found
      tools := sortStr tools_found }

/-- The titled dictionary and pattern matches: every skill `extract_skills`
returns comes from this set. -/
def dictPatternImage (p : SkillPrims) : Finset String :=
  (p.techMatched ∪ p.softMatched ∪ p.toolsMatched ∪ p.patternMatched).image pyTitle

/-- Python `str.strip()`: drop leading and trailing whitespace. -/
def pyStrip (s : String) : String :=
  ⟨((s.data.dropWhile Char.isWhitespace).reverse.dropWhile Char.isWhitespace).reverse⟩

theorem mem_sortStr {s : Finset String} {a : String} : a ∈ sortStr s ↔ a ∈ s := by
  simp [sortStr, Finset.mem_sort]

theorem extract_skills_all_subset (text : String) (p : SkillPrims) :
    ∀ s ∈ (extract_skills text p).all_skills, s ∈ dictPatternImage p := by
  intro s hs
  unfold extract_skills at hs
  split at hs
  · simp at hs
  · rw [mem_sortStr] at hs
    simp only [Finset.mem_union, Finset.mem_image] at hs
    simp only [dictPatternImage, Finset.mem_image, Finset.mem_union]
    rcases hs with ((⟨a, ha, rfl⟩ | ⟨a, ha, rfl⟩) | ⟨a, ha, rfl⟩) | ⟨a, ha, rfl⟩
    · exact ⟨a, by tauto, rfl⟩
    · exact ⟨a, by tauto, rfl⟩
    · exact ⟨a, by tauto, rfl⟩
    · exact ⟨a, by tauto, rfl⟩

/-!
## `src/utils/matcher.py`, `calculate_match_score` (lines 7–84)

`extract_skills` outputs feed skill-set comparison; the scikit-learn TF-IDF
cosine similarity is the oracle `tfidf : Option ℚ` (`none` models the library
call raising an exception, which the source catches at lines 62–64).
-/

/-- Return value of `calculate_match_score`. -/
structure MatchResult where
  match_percentage : ℚ
  matched_skills : List String
  missing_skills : List String
  matched_technical_skills : List String
  missing_technical_skills : List String
  cosine_similarity : ℚ
deriving DecidableEq

/-- The cosine-similarity value the matcher actually uses (matcher.py lines
50–64): the default `0.5` unless both stripped texts have more than 10
characters and the TF-IDF computation returns a value without raising. -/
def cosineUsed (resume_text job_description : String) (tfidf : Option ℚ) : ℚ :=
  if 10 < (pyStrip resume_text).length ∧ 10 < (pyStrip job_description).length then
    match tfidf with
    | some v => v
    | none => 1/2
  else 1/2

/-- `calculate_match_score` (matcher.py lines 7–84). -/
def calculate_match_score (resume_text job_description : String)
    (rp jp : SkillPrims) (tfidf : Option ℚ) : MatchResult :=
  let resume_skills := extract_skills resume_text rp
  let job_skills := extract_skills job_description jp
  let resume_all_skills := lowerSet resume_skills.all_skills
  let job_all_skills := lowerSet job_skills.all_skills
  let resume_technical := lowerSet resume_skills.technical_skills
  let job_technical := lowerSet job_skills.technical_skills
  let matched_skills := resume_all_skills ∩ job_all_skills
  let missing_skills := job_all_skills \ resume_all_skills
  let matched_technical := resume_technical ∩ job_technical
  let missing_technical := job_technical \ resume_technical
  let skill_match_rate : ℚ :=
    if job_all_skills.Nonempty then (matched_skills.card : ℚ) / job_all_skills.card else 1/2
  let technical_match_rate : ℚ :=
    if job_technical.Nonempty then (matched_technical.card : ℚ) / job_technical.card else 1/2
  let cosine_sim := cosineUsed resume_text job_description tfidf
  let final_match :=
    (skill_match_rate * 0.40 + technical_match_rate * 0.30 + cosine_sim * 0.30) * 100
  { match_percentage := round2 final_match
    matched_skills := sortStr matched_skills
    missing_skills := sortStr missing_skills
    matched_technical_skills := sortStr matched_technical
    missing_technical_skills := sortStr missing_technical
    cosine_similarity := round2 (cosine_sim * 100) }

/-- C2: for every resume text and job description, `calculate_match_score`
returns `match_percentage = round2 ((skill_match_rate * 0.40 +
technical_match_rate * 0.30 + cosine_sim * 0.30) * 100)`, where
`skill_match_rate` is `|matched| / |job skills|` (defaulting to `0.5` when the
job description yields no skills) and `technical_match_rate` is the analogous
ratio over technical skills (defaulting to `0.5`). -/
theorem C2_match_percentage_formula (resume_text job_description : String)
    (rp jp : SkillPrims) (tfidf : Option ℚ) :
    (calculate_match_score resume_text job_description rp jp tfidf).match_percentage =
      round2
        (((if (lowerSet (extract_skills job_description jp).all_skills).Nonempty
            then ((lowerSet (extract_skills resume_text rp).all_skills ∩
                   lowerSet (extract_skills job_description jp).all_skills).card : ℚ) /
                 (lowerSet (extract_skills job_description jp).all_skills).card
            else 1/2) * 0.40 +
          (if (lowerSet (extract_skills job_description jp).technical_skills).Nonempty
            then ((lowerSet (extract_skills resume_text rp).technical_skills ∩
                   lowerSet (extract_skills job_description jp).technical_skills).card : ℚ) /
                 (lowerSet (extract_skills job_description jp).technical_skills).card
            else 1/2) * 0.30 +
          cosineUsed resume_text job_description tfidf * 0.30) * 100) := rfl

/-- C9: in the result of `calculate_match_score`, `matched_skills` and
`missing_skills` partition the lowercased job skill set (disjoint, union the
whole set), `matched_skills` is a subset of the lowercased resume skills, the
same partition holds for the technical lists over the job technical skills,
and all four lists are sorted and duplicate-free. -/
theorem C9_match_lists_partition (resume_text job_description : String)
    (rp jp : SkillPrims) (tfidf : Option ℚ) :
    (calculate_match_score resume_text job_description rp jp tfidf).matched_skills.toFinset ∩
        (calculate_match_score resume_text job_description rp jp tfidf).missing_skills.toFinset = ∅ ∧
    (calculate_match_score resume_text job_description rp jp tfidf).matched_skills.toFinset ∪
        (calculate_match_score resume_text job_description rp jp tfidf).missing_skills.toFinset =
      lowerSet (extract_skills job_description jp).all_skills ∧
    (calculate_match_score resume_text job_description rp jp tfidf).matched_skills.toFinset ⊆
      lowerSet (extract_skills resume_text rp).all_skills ∧
    (calculate_match_score resume_text job_description rp jp tfidf).matched_technical_skills.toFinset ∩
        (calculate_match_score resume_text job_description rp jp tfidf).missing_technical_skills.toFinset = ∅ ∧
    (calculate_match_score resume_text job_description rp jp tfidf).matched_technical_skills.toFinset ∪
        (calculate_match_score resume_text job_description rp jp tfidf).missing_technical_skills.toFinset =
      lowerSet (extract_skills job_description jp).technical_skills ∧
    (calculate_match_score resume_text job_description rp jp tfidf).matched_technical_skills.toFinset ⊆
      lowerSet (extract_skills resume_text rp).technical_skills ∧
    ((calculate_match_score resume_text job_description rp jp tfidf).matched_skills.Sorted (· ≤ ·) ∧
     (calculate_match_score resume_text job_description rp jp tfidf).missing_skills.Sorted (· ≤ ·) ∧
     (calculate_match_score resume_text job_description rp jp tfidf).matched_technical_skills.Sorted (· ≤ ·) ∧
     (calculate_match_score resume_text job_description rp jp tfidf).missing_technical_skills.Sorted (· ≤ ·)) ∧
    ((calculate_match_score resume_text job_description rp jp tfidf).matched_skills.Nodup ∧
     (calculate_match_score resume_text job_description rp jp tfidf).missing_skills.Nodup ∧
     (calculate_match_score resume_text job_description rp jp tfidf).matched_technical_skills.Nodup ∧
     (calculate_match_score resume_text job_description rp jp tfidf).missing_technical_skills.Nodup) := by
  simp only [calculate_match_score, sortStr, Finset.sort_toFinset]
  refine ⟨?_, ?_, ?_, ?_, ?_, ?_,
    ⟨Finset.sort_sorted _ _, Finset.sort_sorted _ _, Finset.sort_sorted _ _, Finset.sort_sorted _ _⟩,
    ⟨Finset.sort_nodup _ _, Finset.sort_nodup _ _, Finset.sort_nodup _ _, Finset.sort_nodup _ _⟩⟩
  · ext a; simp only [Finset.mem_inter, Finset.mem_sdiff, Finset.not_mem_empty]; tauto
  · ext a; simp only [Finset.mem_union, Finset.mem_inter, Finset.mem_sdiff]; tauto
  · exact Finset.inter_subset_left
  · ext a; simp only [Finset.mem_inter, Finset.mem_sdiff, Finset.not_mem_empty]; tauto
  · ext a; simp only [Finset.mem_union, Finset.mem_inter, Finset.mem_sdiff]; tauto
  · exact Finset.inter_subset_left

/-- C4: `calculate_match_score` never propagates a TF-IDF failure: whenever
the TF-IDF computation raises (`tfidf = none`) or either stripped input text
has at most 10 characters, the cosine term is the default `0.5`, the complete
result record is the one computed with the default, and the reported
`cosine_similarity` is `50`. -/
theorem C4_cosine_default (resume_text job_description : String)
    (rp jp : SkillPrims) (tfidf : Option ℚ)
    (h : tfidf = none ∨ (pyStrip resume_text).length ≤ 10 ∨
         (pyStrip job_description).length ≤ 10) :
    cosineUsed resume_text job_description tfidf = 1/2 ∧
    calculate_match_score resume_text job_description rp jp tfidf =
      calculate_match_score resume_text job_description rp jp none ∧
    (calculate_match_score resume_text job_description rp jp tfidf).cosine_similarity = 50 := by
  have hnone : cosineUsed resume_text job_description none = 1/2 := by
    unfold cosineUsed; split <;> rfl
  have hcos : cosineUsed resume_text job_description tfidf = 1/2 := by
    rcases h with rfl | h | h
    · exact hnone
    · unfold cosineUsed; rw [if_neg]; omega
    · unfold cosineUsed; rw [if_neg]; omega
  refine ⟨hcos, ?_, ?_⟩
  · simp only [calculate_match_score, hcos, hnone]
  · simp only [calculate_match_score, hcos]
    norm_num [round2, round_eq]

/-- Concrete oracle instance used by the witnesses below. -/
def samplePrims : SkillPrims :=
  { techMatched := {"python"}
    softMatched := ∅
    toolsMatched := ∅
    patternMatched := ∅
    nounChunks := ["cloud platforms"] }

/-- Witness for `C4_cosine_default` at a concrete input. -/
theorem C4_cosine_default_witness :
    ((some (9/10 : ℚ) = none ∨ (pyStrip "hi").length ≤ 10 ∨ (pyStrip "a job").length ≤ 10) ∧
     calculate_match_score "hi" "a job" samplePrims samplePrims (some (9/10)) =
       calculate_match_score "hi" "a job" samplePrims samplePrims none) :=
  ⟨Or.inr (Or.inl (by decide)),
   (C4_cosine_default "hi" "a job" samplePrims samplePrims (some (9/10))
     (Or.inr (Or.inl (by decide)))).2.1⟩

/-- Every skill in any of the four lists returned by `extract_skills` is the
title-cased form of a dictionary or programming-pattern match. -/
theorem extract_skills_lists_subset (text : String) (p : SkillPrims) :
    ∀ s, (s ∈ (extract_skills text p).all_skills ∨
          s ∈ (extract_skills text p).technical_skills ∨
          s ∈ (extract_skills text p).soft_skills ∨
          s ∈ (extract_skills text p).tools) →
      s ∈ dictPatternImage p := by
  intro s hs
  unfold extract_skills at hs
  split at hs
  · simp at hs
  · simp only [mem_sortStr, Finset.mem_union, Finset.mem_image, dictPatternImage] at hs ⊢
    aesop

/-- C3 counterexample: no input ever makes `extract_skills` return a skill
that comes from the spaCy noun-chunk mining but is not a dictionary or
programming-pattern match — the noun chunks are computed (line 118 of
skill_extractor.py) and then never used. -/
theorem C3_counterexample :
    ¬ ∃ (text : String) (p : SkillPrims) (s : String),
        (s ∈ (extract_skills text p).all_skills ∨
         s ∈ (extract_skills text p).technical_skills ∨
         s ∈ (extract_skills text p).soft_skills ∨
         s ∈ (extract_skills text p).tools) ∧
        s ∈ p.nounChunks.map String.toLower ∧ s ∉ dictPatternImage p := by
  rintro ⟨text, p, s, hmem, -, hnot⟩
  exact hnot (extract_skills_lists_subset text p s hmem)

/-- C3 (amended): every skill `extract_skills` returns is the title-cased
form of a fixed-dictionary or regex-pattern match, and the returned lists are
independent of the spaCy noun chunks, which the function computes but never
uses. -/
theorem C3_amended_no_noun_chunk_skills (text : String) (p : SkillPrims)
    (nc : List String) :
    (∀ s, (s ∈ (extract_skills text p).all_skills ∨
           s ∈ (extract_skills text p).technical_skills ∨
           s ∈ (extract_skills text p).soft_skills ∨
           s ∈ (extract_skills text p).tools) →
        s ∈ dictPatternImage p) ∧
    extract_skills text p = extract_skills text { p with nounChunks := nc } :=
  ⟨fun s h => extract_skills_lists_subset text p s h, rfl⟩

/-- Witness for `C3_amended_no_noun_chunk_skills` at a concrete input. -/
theorem C3_amended_witness :
    "Python" ∈ dictPatternImage samplePrims ∧
    extract_skills "python developer" samplePrims =
      extract_skills "python developer" { samplePrims with nounChunks := [] } :=
  ⟨(C3_amended_no_noun_chunk_skills "python developer" samplePrims []).1 "Python"
      (Or.inl (by
        have hne : ("python developer" : String) ≠ "" := by decide
        simp only [extract_skills, if_neg hne, mem_sortStr, Finset.mem_union, Finset.mem_image]
        exact Or.inl (Or.inl (Or.inl ⟨"python", by simp [samplePrims], by decide⟩)))),
   (C3_amended_no_noun_chunk_skills "python developer" samplePrims []).2⟩

/-!
## `src/utils/matcher.py`, `rank_resumes` (lines 86–106)

The per-resume oracle inputs (`extract_skills` primitives and the TF-IDF
value) are functions of the resume text; the job-side primitives are fixed.
Python `list.sort(key=..., reverse=True)` is modelled by a stable insertion
sort with the relation "left score is at least right score".
-/

/-- `rank_resumes` (matcher.py lines 86–106): score every resume against the
job description with `calculate_match_score`, pair each score with the index
of its resume, and sort by score descending. -/
def rank_resumes (resumes : List String) (job_description : String)
    (prims : String → SkillPrims) (jp : SkillPrims)
    (tfidf : String → Option ℚ) : List (ℕ × ℚ) :=
  let scores := resumes.enum.map (fun ir =>
    (ir.1, (calculate_match_score ir.2 job_description (prims ir.2) jp
      (tfidf ir.2)).match_percentage))
  List.insertionSort (fun a b => b.2 ≤ a.2) scores

/-- C10: `rank_resumes` returns one `(index, score)` pair per resume, the
indices are a permutation of `0..n-1`, the pairs are sorted in non-increasing
score order, and each pair carries exactly the `match_percentage` that
`calculate_match_score` returns for the resume at that index. -/
theorem C10_rank_resumes_spec (resumes : List String) (job_description : String)
    (prims : String → SkillPrims) (jp : SkillPrims) (tfidf : String → Option ℚ) :
    (rank_resumes resumes job_description prims jp tfidf).length = resumes.length ∧
    ((rank_resumes resumes job_description prims jp tfidf).map Prod.fst).Perm
      (List.range resumes.length) ∧
    (rank_resumes resumes job_description prims jp tfidf).Sorted (fun a b => b.2 ≤ a.2) ∧
    ∀ p ∈ rank_resumes resumes job_description prims jp tfidf,
      ∃ h : p.1 < resumes.length,
        p.2 = (calculate_match_score (resumes.get ⟨p.1, h⟩) job_description
                (prims (resumes.get ⟨p.1, h⟩)) jp
                (tfidf (resumes.get ⟨p.1, h⟩))).match_percentage := by
  have hperm : (rank_resumes resumes job_description prims jp tfidf).Perm
      (resumes.enum.map (fun ir =>
        (ir.1, (calculate_match_score ir.2 job_description (prims ir.2) jp
          (tfidf ir.2)).match_percentage))) := by
    exact List.perm_insertionSort _ _
  refine ⟨?_, ?_, ?_, ?_⟩
  · rw [hperm.length_eq, List.length_map, List.enum_length]
  · have h1 := hperm.map Prod.fst
    rw [List.map_map] at h1
    have h2 : (Prod.fst ∘ fun ir : ℕ × String =>
        (ir.1, (calculate_match_score ir.2 job_description (prims ir.2) jp
          (tfidf ir.2)).match_percentage)) = Prod.fst := funext fun ir => rfl
    rw [h2, List.enum_map_fst] at h1
    exact h1
  · haveI : IsTotal (ℕ × ℚ) (fun a b => b.2 ≤ a.2) := ⟨fun a b => le_total b.2 a.2⟩
    haveI : IsTrans (ℕ × ℚ) (fun a b => b.2 ≤ a.2) :=
      ⟨fun _ _ _ hab hbc => le_trans hbc hab⟩
    exact List.sorted_insertionSort _ _
  · intro p hp
    rw [hperm.mem_iff, List.mem_map] at hp
    obtain ⟨ir, hir, rfl⟩ := hp
    obtain ⟨i, a⟩ := ir
    have hget : resumes[i]? = some a := List.mem_enum_iff_getElem?.mp hir
    obtain ⟨h', ha⟩ := List.getElem?_eq_some.mp hget
    exact ⟨h', by simp only [← ha, List.get_eq_getElem]⟩

/-- Witness for `C10_rank_resumes_spec` at a concrete input. -/
theorem C10_rank_resumes_witness :
    ∃ h : (0 : ℕ) < (List.length (["", ""] : List String)),
      (50 : ℚ) = (calculate_match_score ((["", ""] : List String).get ⟨0, h⟩) ""
        samplePrims samplePrims none).match_percentage :=
  (C10_rank_resumes_spec ["", ""] "" (fun _ => samplePrims) samplePrims
    (fun _ => none)).2.2.2 (0, 50) (by
      have hms : (calculate_match_score "" "" samplePrims samplePrims
          none).match_percentage = 50 := by
        norm_num [calculate_match_score, extract_skills, lowerSet, cosineUsed,
          pyStrip, round2, round_eq]
      simp only [rank_resumes, List.enum, List.enumFrom, List.map, hms]
      simp [List.insertionSort, List.orderedInsert])

/-!
## `src/utils/ats_scorer.py`, `calculate_ats_score` (lines 5–163)

The section and experience-keyword substring tests, the bullet-character
test, and the word count are embedded directly; results of the regex scans
(email, phone, dates, quantities), the spaCy keyword count
(`len(extract_keywords(...))`) and the action-verb count are oracle
parameters, one per primitive scan of the source.
-/

/-- Keyword-density component (ats_scorer.py lines 38–58): sections found,
spaCy keyword count (oracle `numKeywords`), technical-skill count. -/
def ats_keyword_density (resume_text : String) (rp : SkillPrims)
    (numKeywords : ℕ) : ℚ :=
  let text_lower := resume_text.toLower
  let important_sections : List String :=
    ["experience", "education", "skills", "projects", "certifications",
     "summary", "objective", "achievements", "work history"]
  let sections_found := important_sections.countP (fun sec => strContains text_lower sec)
  let section_score : ℚ := min ((sections_found : ℚ) / 6 * 100) 100
  let keyword_score : ℚ := min ((numKeywords : ℚ) / 30 * 100) 100
  let tech_skill_score : ℚ :=
    min (((extract_skills resume_text rp).technical_skills.length : ℚ) / 10 * 100) 100
  (section_score + keyword_score + tech_skill_score) / 3

/-- Formatting component (ats_scorer.py lines 60–96): the email, phone and
date regex results are the oracle booleans; the bullet-character test and the
word count are embedded. -/
def ats_formatting (resume_text : String)
    (hasEmail hasPhone hasDates : Bool) : ℚ :=
  let word_count := ((resume_text.split (fun c => c.isWhitespace)).filter (· ≠ "")).length
  let bullet_indicators : List Char := ['•', '●', '▪', '■', '-', '*']
  let has_bullets := bullet_indicators.any (fun c => resume_text.data.contains c)
  (if hasEmail then 20 else 0) + (if hasPhone then 20 else 0) +
    (if hasDates then 20 else 0) + (if has_bullets then 20 else 0) +
    (if 400 ≤ word_count ∧ word_count ≤ 2000 then 20
     else if 300 < word_count then 10 else 0)

/-- Action-verb component (ats_scorer.py lines 98–103); the regex count of
`count_action_verbs` is the oracle `actionVerbCount`. -/
def ats_action_verbs (actionVerbCount : ℕ) : ℚ :=
  min ((actionVerbCount : ℚ) / 15 * 100) 100

/-- Experience component (ats_scorer.py lines 105–123): the count of the
quantity regex matches is the oracle `numNumbers`; the experience-keyword
substring tests are embedded. -/
def ats_experience (resume_text : String) (numNumbers : ℕ) : ℚ :=
  let text_lower := resume_text.toLower
  let experience_keywords : List String :=
    ["developed", "managed", "led", "implemented", "designed",
     "created", "improved", "increased", "reduced", "achieved"]
  let exp_count := experience_keywords.countP (fun k => strContains text_lower k)
  (if 5 ≤ numNumbers then (50 : ℚ) else if 2 ≤ numNumbers then 25 else 0) +
    min ((exp_count : ℚ) / 5 * 50) 50

/-- Skill-match component (ats_scorer.py lines 125–141). -/
def ats_skill_match (resume_text job_description : String)
    (rp jp : SkillPrims) : ℚ :=
  if job_description ≠ "" then
    let job_all_skills := lowerSet (extract_skills job_description jp).all_skills
    let resume_all_skills := lowerSet (extract_skills resume_text rp).all_skills
    if job_all_skills.Nonempty then
      ((resume_all_skills ∩ job_all_skills).card : ℚ) / job_all_skills.card * 100
    else 50
  else 50

/-- Return value of `calculate_ats_score`. -/
structure AtsResult where
  overall_score : ℚ
  keyword_density : ℚ
  formatting : ℚ
  action_verbs : ℚ
  experience : ℚ
  skill_match : ℚ
deriving DecidableEq

/-- `calculate_ats_score` (ats_scorer.py lines 5–163): the weighted sum of
the five component scores with weights 0.40 / 0.20 / 0.15 / 0.15 / 0.10
(lines 146–154), every reported value rounded to two decimals. -/
def calculate_ats_score (resume_text job_description : String)
    (rp jp : SkillPrims) (numKeywords actionVerbCount numNumbers : ℕ)
    (hasEmail hasPhone hasDates : Bool) : AtsResult :=
  let kd := ats_keyword_density resume_text rp numKeywords
  let fmt := ats_formatting resume_text hasEmail hasPhone hasDates
  let av := ats_action_verbs actionVerbCount
  let ex := ats_experience resume_text numNumbers
  let sm := ats_skill_match resume_text job_description rp jp
  let final_score := kd * 0.40 + fmt * 0.20 + av * 0.15 + ex * 0.15 + sm * 0.10
  { overall_score := round2 final_score
    keyword_density := round2 kd
    formatting := round2 fmt
    action_verbs := round2 av
    experience := round2 ex
    skill_match := round2 sm }

theorem round2_bounds {x : ℚ} (h0 : 0 ≤ x) (h100 : x ≤ 100) :
    0 ≤ round2 x ∧ round2 x ≤ 100 := by
  have hl : (0 : ℤ) ≤ round (x * 100) := by
    rw [round_eq]
    exact Int.floor_nonneg.mpr (by linarith)
  have hfl : (⌊(20001 : ℚ)/2⌋ : ℤ) = 10000 := by
    rw [Int.floor_eq_iff] <;> norm_num
  have hu : round (x * 100) ≤ 10000 := by
    rw [round_eq]
    have h := Int.floor_le_floor (α := ℚ)
      (show x * 100 + 1/2 ≤ (20001 : ℚ)/2 by linarith)
    rwa [hfl] at h
  unfold round2
  constructor
  · apply div_nonneg _ (by norm_num)
    exact_mod_cast hl
  · rw [div_le_iff (by norm_num : (0:ℚ) < 100)]
    calc ((round (x * 100) : ℤ) : ℚ) ≤ 10000 := by exact_mod_cast hu
    _ = 100 * 100 := by norm_num

theorem min100_bounds {a : ℚ} (h : 0 ≤ a) : 0 ≤ min a 100 ∧ min a 100 ≤ 100 :=
  ⟨le_min h (by norm_num), min_le_right _ _⟩

theorem ats_keyword_density_bounds (resume_text : String) (rp : SkillPrims)
    (numKeywords : ℕ) :
    0 ≤ ats_keyword_density resume_text rp numKeywords ∧
    ats_keyword_density resume_text rp numKeywords ≤ 100 := by
  have key : ∀ a b c : ℚ, 0 ≤ a → 0 ≤ b → 0 ≤ c →
      0 ≤ (min a 100 + min b 100 + min c 100) / 3 ∧
      (min a 100 + min b 100 + min c 100) / 3 ≤ 100 := by
    intro a b c ha hb hc
    obtain ⟨h1, h2⟩ := min100_bounds ha
    obtain ⟨h3, h4⟩ := min100_bounds hb
    obtain ⟨h5, h6⟩ := min100_bounds hc
    constructor <;> linarith
  simp only [ats_keyword_density]
  exact key _ _ _ (by positivity) (by positivity) (by positivity)

theorem ats_formatting_bounds (resume_text : String)
    (hasEmail hasPhone hasDates : Bool) :
    0 ≤ ats_formatting resume_text hasEmail hasPhone hasDates ∧
    ats_formatting resume_text hasEmail hasPhone hasDates ≤ 100 := by
  constructor <;> (simp only [ats_formatting]; split_ifs <;> norm_num)

theorem ats_action_verbs_bounds (actionVerbCount : ℕ) :
    0 ≤ ats_action_verbs actionVerbCount ∧ ats_action_verbs actionVerbCount ≤ 100 :=
  min100_bounds (by positivity)

theorem ats_experience_bounds (resume_text : String) (numNumbers : ℕ) :
    0 ≤ ats_experience resume_text numNumbers ∧
    ats_experience resume_text numNumbers ≤ 100 := by
  have key : ∀ (m : ℕ) (e : ℚ), 0 ≤ e →
      0 ≤ (if 5 ≤ m then (50 : ℚ) else if 2 ≤ m then 25 else 0) + min (e / 5 * 50) 50 ∧
      (if 5 ≤ m then (50 : ℚ) else if 2 ≤ m then 25 else 0) + min (e / 5 * 50) 50 ≤ 100 := by
    intro m e he
    have hm : 0 ≤ min (e / 5 * 50) 50 ∧ min (e / 5 * 50) 50 ≤ 50 :=
      ⟨le_min (by positivity) (by norm_num), min_le_right _ _⟩
    constructor <;> split_ifs <;> linarith [hm.1, hm.2]
  simp only [ats_experience]
  exact key _ _ (by positivity)

theorem ats_skill_match_bounds (resume_text job_description : String)
    (rp jp : SkillPrims) :
    0 ≤ ats_skill_match resume_text job_description rp jp ∧
    ats_skill_match resume_text job_description rp jp ≤ 100 := by
  simp only [ats_skill_match]
  split_ifs with h1 h2
  · constructor
    · positivity
    · have hcardpos : (0 : ℚ) <
          ((lowerSet (extract_skills job_description jp).all_skills).card : ℚ) := by
        exact_mod_cast Finset.card_pos.mpr h2
      have hle : ((lowerSet (extract_skills resume_text rp).all_skills ∩
          lowerSet (extract_skills job_description jp).all_skills).card : ℚ) ≤
          ((lowerSet (extract_skills job_description jp).all_skills).card : ℚ) := by
        exact_mod_cast Finset.card_le_card Finset.inter_subset_right
      have hratio := (div_le_one hcardpos).mpr hle
      nlinarith
  · norm_num
  · norm_num

/-- C1: `calculate_ats_score` returns `overall_score` equal to the weighted
sum of the five component scores with weights 0.40 (keyword density), 0.20
(formatting), 0.15 (action verbs), 0.15 (experience), 0.10 (skill match),
rounded to two decimals; each component score — both the internal value and
the rounded value reported — lies in `[0, 100]`, and so does the overall
score. -/
theorem C1_ats_overall_weighted_sum (resume_text job_description : String)
    (rp jp : SkillPrims) (numKeywords actionVerbCount numNumbers : ℕ)
    (hasEmail hasPhone hasDates : Bool) :
    (calculate_ats_score resume_text job_description rp jp numKeywords
        actionVerbCount numNumbers hasEmail hasPhone hasDates).overall_score =
      round2 (ats_keyword_density resume_text rp numKeywords * 0.40 +
        ats_formatting resume_text hasEmail hasPhone hasDates * 0.20 +
        ats_action_verbs actionVerbCount * 0.15 +
        ats_experience resume_text numNumbers * 0.15 +
        ats_skill_match resume_text job_description rp jp * 0.10) ∧
    (0 ≤ ats_keyword_density resume_text rp numKeywords ∧
      ats_keyword_density resume_text rp numKeywords ≤ 100) ∧
    (0 ≤ ats_formatting resume_text hasEmail hasPhone hasDates ∧
      ats_formatting resume_text hasEmail hasPhone hasDates ≤ 100) ∧
    (0 ≤ ats_action_verbs actionVerbCount ∧ ats_action_verbs actionVerbCount ≤ 100) ∧
    (0 ≤ ats_experience resume_text numNumbers ∧
      ats_experience resume_text numNumbers ≤ 100) ∧
    (0 ≤ ats_skill_match resume_text job_description rp jp ∧
      ats_skill_match resume_text job_description rp jp ≤ 100) ∧
    (0 ≤ (calculate_ats_score resume_text job_description rp jp numKeywords
        actionVerbCount numNumbers hasEmail hasPhone hasDates).keyword_density ∧
      (calculate_ats_score resume_text job_description rp jp numKeywords
        actionVerbCount numNumbers hasEmail hasPhone hasDates).keyword_density ≤ 100) ∧
    (0 ≤ (calculate_ats_score resume_text job_description rp jp numKeywords
        actionVerbCount numNumbers hasEmail hasPhone hasDates).formatting ∧
      (calculate_ats_score resume_text job_description rp jp numKeywords
        actionVerbCount numNumbers hasEmail hasPhone hasDates).formatting ≤ 100) ∧
    (0 ≤ (calculate_ats_score resume_text job_description rp jp numKeywords
        actionVerbCount numNumbers hasEmail hasPhone hasDates).action_verbs ∧
      (calculate_ats_score resume_text job_description rp jp numKeywords
        actionVerbCount numNumbers hasEmail hasPhone hasDates).action_verbs ≤ 100) ∧
    (0 ≤ (calculate_ats_score resume_text job_description rp jp numKeywords
        actionVerbCount numNumbers hasEmail hasPhone hasDates).experience ∧
      (calculate_ats_score resume_text job_description rp jp numKeywords
        actionVerbCount numNumbers hasEmail hasPhone hasDates).experience ≤ 100) ∧
    (0 ≤ (calculate_ats_score resume_text job_description rp jp numKeywords
        actionVerbCount numNumbers hasEmail hasPhone hasDates).skill_match ∧
      (calculate_ats_score resume_text job_description rp jp numKeywords
        actionVerbCount numNumbers hasEmail hasPhone hasDates).skill_match ≤ 100) ∧
    (0 ≤ (calculate_ats_score resume_text job_description rp jp numKeywords
        actionVerbCount numNumbers hasEmail hasPhone hasDates).overall_score ∧
      (calculate_ats_score resume_text job_description rp jp numKeywords
        actionVerbCount numNumbers hasEmail hasPhone hasDates).overall_score ≤ 100) := by
  obtain ⟨k1, k2⟩ := ats_keyword_density_bounds resume_text rp numKeywords
  obtain ⟨f1, f2⟩ := ats_formatting_bounds resume_text hasEmail hasPhone hasDates
  obtain ⟨a1, a2⟩ := ats_action_verbs_bounds actionVerbCount
  obtain ⟨e1, e2⟩ := ats_experience_bounds resume_text numNumbers
  obtain ⟨s1, s2⟩ := ats_skill_match_bounds resume_text job_description rp jp
  refine ⟨rfl, ⟨k1, k2⟩, ⟨f1, f2⟩, ⟨a1, a2⟩, ⟨e1, e2⟩, ⟨s1, s2⟩,
    round2_bounds k1 k2, round2_bounds f1 f2, round2_bounds a1 a2,
    round2_bounds e1 e2, round2_bounds s1 s2, round2_bounds (by nlinarith) (by nlinarith)⟩

/-!
## `src/utils/pdf_parser.py` (lines 33–90)

`clean_text` is fully embedded on character lists.  Python
`" ".join(text.split())` is "collapse every maximal whitespace run to a
single space, then strip both ends"; `re.sub(r'\s+', ' ', text)` is the same
run collapsing.  `\w` is approximated by ASCII alphanumerics plus
underscore.  The two PDF extraction libraries of `parse_pdf` are oracle
strings (each helper catches its own exceptions and returns `""`).
-/

/-- Collapse every maximal whitespace run to a single `' '`
(the effect of `re.sub(r'\s+', ' ', text)`). -/
def collapseWs : List Char → List Char
  | [] => []
  | [c] => if c.isWhitespace then [' '] else [c]
  | c :: d :: rest =>
    if c.isWhitespace then
      if d.isWhitespace then collapseWs (d :: rest)
      else ' ' :: collapseWs (d :: rest)
    else c :: collapseWs (d :: rest)

/-- Python `str.strip()` on character lists. -/
def trimWs (l : List Char) : List Char :=
  ((l.dropWhile Char.isWhitespace).reverse.dropWhile Char.isWhitespace).reverse

/-- ASCII approximation of the regex word class `\w`. -/
def isPyWord (c : Char) : Bool := c.isAlphanum || c == '_'

/-- The punctuation preserved by the `clean_text` regex (pdf_parser.py
line 81): `. , - ( ) # + / @`. -/
def keptPunct : List Char := ['.', ',', '-', '(', ')', '#', '+', '/', '@']

/-- A character the `clean_text` character filter keeps
(`[^\w\s.,\-()#+/@]` is replaced by a space). -/
def isKeptChar (c : Char) : Bool := isPyWord c || c.isWhitespace || keptPunct.contains c

/-- `clean_text` (pdf_parser.py lines 62–90) on character lists, step by
step in source order. -/
def clean_text_chars (l : List Char) : List Char :=
  let l1 := l.map (fun c => if c = '\x00' ∨ c = '\r' then ' ' else c)
  let l2 := trimWs (collapseWs l1)
  let l3 := l2.map (fun c => if isKeptChar c then c else ' ')
  let l4 := collapseWs l3
  let l5 := l4.take 1000000
  trimWs l5

/-- `clean_text` (pdf_parser.py lines 62–90): the empty/falsy-input guard is
line 70; steps — replace NUL and CR by spaces (line 74), join-split (line
77), character filter (line 81), whitespace-run collapse (line 84), length
cap (lines 87–88), strip (line 90). -/
def clean_text (s : String) : String :=
  if s = "" then "" else ⟨clean_text_chars s.data⟩

/-- Adjacent characters are not both whitespace. -/
def noWsPair (a b : Char) : Prop := ¬(a.isWhitespace ∧ b.isWhitespace)

theorem mem_collapseWs : ∀ (l : List Char) (c : Char), c ∈ collapseWs l →
    c = ' ' ∨ (c ∈ l ∧ c.isWhitespace = false)
  | [], c, h => by simp [collapseWs] at h
  | [d], c, h => by
    by_cases hd : d.isWhitespace
    · simp [collapseWs, hd] at h
      exact Or.inl h
    · simp [collapseWs, hd] at h
      subst h
      exact Or.inr ⟨by simp, by simpa using hd⟩
  | d :: e :: rest, c, h => by
    by_cases hd : d.isWhitespace
    · by_cases he : e.isWhitespace
      · rw [show collapseWs (d :: e :: rest) = collapseWs (e :: rest) by
          simp [collapseWs, hd, he]] at h
        rcases mem_collapseWs (e :: rest) c h with h' | ⟨hm, hw⟩
        · exact Or.inl h'
        · exact Or.inr ⟨List.mem_cons_of_mem _ hm, hw⟩
      · rw [show collapseWs (d :: e :: rest) = ' ' :: collapseWs (e :: rest) by
          simp [collapseWs, hd, he]] at h
        rcases List.mem_cons.mp h with rfl | h'
        · exact Or.inl rfl
        · rcases mem_collapseWs (e :: rest) c h' with h'' | ⟨hm, hw⟩
          · exact Or.inl h''
          · exact Or.inr ⟨List.mem_cons_of_mem _ hm, hw⟩
    · rw [show collapseWs (d :: e :: rest) = d :: collapseWs (e :: rest) by
        simp [collapseWs, hd]] at h
      rcases List.mem_cons.mp h with rfl | h'
      · exact Or.inr ⟨List.mem_cons_self _ _, by simpa using hd⟩
      · rcases mem_collapseWs (e :: rest) c h' with h'' | ⟨hm, hw⟩
        · exact Or.inl h''
        · exact Or.inr ⟨List.mem_cons_of_mem _ hm, hw⟩

theorem collapseWs_head_not_ws : ∀ (d : Char) (rest : List Char),
    d.isWhitespace = false → (collapseWs (d :: rest)).head? = some d
  | d, [], hd => by simp [collapseWs, hd]
  | d, e :: rest, hd => by simp [collapseWs, hd]

theorem chain_collapseWs : ∀ l : List Char, (collapseWs l).Chain' noWsPair
  | [] => by simp [collapseWs]
  | [c] => by
    by_cases h : c.isWhitespace <;> simp [collapseWs, h]
  | c :: d :: rest => by
    by_cases hc : c.isWhitespace
    · by_cases hd : d.isWhitespace
      · rw [show collapseWs (c :: d :: rest) = collapseWs (d :: rest) by
          simp [collapseWs, hc, hd]]
        exact chain_collapseWs (d :: rest)
      · rw [show collapseWs (c :: d :: rest) = ' ' :: collapseWs (d :: rest) by
          simp [collapseWs, hc, hd]]
        rw [List.chain'_cons']
        refine ⟨?_, chain_collapseWs (d :: rest)⟩
        intro b hb
        rw [collapseWs_head_not_ws d rest (by simpa using hd)] at hb
        simp only [Option.mem_def, Option.some.injEq] at hb
        subst hb
        simp [noWsPair, hd]
    · rw [show collapseWs (c :: d :: rest) = c :: collapseWs (d :: rest) by
        simp [collapseWs, hc]]
      rw [List.chain'_cons']
      exact ⟨fun b _ => by simp [noWsPair, hc], chain_collapseWs (d :: rest)⟩

theorem head_dropWhile_not (p : Char → Bool) : ∀ (l : List Char) (c : Char),
    (l.dropWhile p).head? = some c → p c = false
  | [], c, h => by simp [List.dropWhile] at h
  | d :: t, c, h => by
    rw [List.dropWhile_cons] at h
    by_cases hd : p d
    · rw [if_pos hd] at h
      exact head_dropWhile_not p t c h
    · rw [if_neg hd] at h
      simp only [List.head?_cons, Option.some.injEq] at h
      subst h
      simpa using hd

theorem mem_trimWs {l : List Char} {c : Char} (h : c ∈ trimWs l) : c ∈ l := by
  unfold trimWs at h
  rw [List.mem_reverse] at h
  have h1 := (List.dropWhile_sublist _).subset h
  rw [List.mem_reverse] at h1
  exact (List.dropWhile_sublist _).subset h1

theorem chain_trimWs {l : List Char} (h : List.Chain' noWsPair l) :
    List.Chain' noWsPair (trimWs l) := by
  unfold trimWs
  rw [List.chain'_reverse]
  apply List.Chain'.suffix _ (List.dropWhile_suffix _)
  rw [List.chain'_reverse]
  exact (h.suffix (List.dropWhile_suffix _)).imp (fun a b hab => hab)

theorem length_trimWs (l : List Char) : (trimWs l).length ≤ l.length := by
  unfold trimWs
  calc ((l.dropWhile Char.isWhitespace).reverse.dropWhile Char.isWhitespace).reverse.length
      = ((l.dropWhile Char.isWhitespace).reverse.dropWhile Char.isWhitespace).length :=
        List.length_reverse _
    _ ≤ (l.dropWhile Char.isWhitespace).reverse.length :=
        (List.dropWhile_sublist _).length_le
    _ = (l.dropWhile Char.isWhitespace).length := List.length_reverse _
    _ ≤ l.length := (List.dropWhile_sublist _).length_le

theorem trimWs_prefix_dropWhile (l : List Char) :
    trimWs l <+: l.dropWhile Char.isWhitespace := by
  unfold trimWs
  have h := List.dropWhile_suffix (l := (l.dropWhile Char.isWhitespace).reverse)
    (p := Char.isWhitespace)
  have h2 := List.reverse_prefix.mpr h
  rwa [List.reverse_reverse] at h2

theorem head_trimWs {l : List Char} {c : Char} (h : (trimWs l).head? = some c) :
    c.isWhitespace = false := by
  obtain ⟨t, ht⟩ := trimWs_prefix_dropWhile l
  have hd : (l.dropWhile Char.isWhitespace).head? = some c := by
    rw [← ht]
    cases htw : trimWs l with
    | nil => rw [htw] at h; simp at h
    | cons a l' =>
      rw [htw] at h
      simp only [List.head?_cons, Option.some.injEq] at h
      subst h
      simp
  exact head_dropWhile_not _ _ _ hd

theorem getLast_trimWs {l : List Char} {c : Char} (h : (trimWs l).getLast? = some c) :
    c.isWhitespace = false := by
  unfold trimWs at h
  rw [List.getLast?_reverse] at h
  exact head_dropWhile_not _ _ _ h

/-- C6: `clean_text` output contains no NUL and no CR, has no two adjacent
whitespace characters and every whitespace character in it is a plain space,
consists only of (ASCII-approximated) word characters, whitespace and the
punctuation `. , - ( ) # + / @`, is at most 1,000,000 characters long, has
no leading or trailing whitespace, and the empty input yields the empty
string. -/
theorem C6_clean_text_spec (s : String) :
    (∀ c ∈ (clean_text s).data, isKeptChar c = true ∧ (c.isWhitespace = true → c = ' ')) ∧
    '\x00' ∉ (clean_text s).data ∧
    '\r' ∉ (clean_text s).data ∧
    List.Chain' noWsPair (clean_text s).data ∧
    (clean_text s).length ≤ 1000000 ∧
    (∀ c, (clean_text s).data.head? = some c → c.isWhitespace = false) ∧
    (∀ c, (clean_text s).data.getLast? = some c → c.isWhitespace = false) ∧
    clean_text "" = "" := by
  by_cases hs : s = ""
  · subst hs
    refine ⟨?_, ?_, ?_, ?_, ?_, ?_, ?_, rfl⟩ <;>
      simp [clean_text, String.length]
  · have hdata : (clean_text s).data = clean_text_chars s.data := by
      simp [clean_text, hs]
    have hmem : ∀ c ∈ clean_text_chars s.data,
        isKeptChar c = true ∧ (c.isWhitespace = true → c = ' ') := by
      intro c hc
      have hc1 := mem_trimWs hc
      have hc2 := List.take_subset _ _ hc1
      rcases mem_collapseWs _ c hc2 with rfl | ⟨hm, hw⟩
      · exact ⟨by decide, fun _ => rfl⟩
      · rw [List.mem_map] at hm
        obtain ⟨d, _, rfl⟩ := hm
        by_cases hk : isKeptChar d = true
        · rw [if_pos hk] at hw ⊢
          exact ⟨hk, fun hww => by rw [hww] at hw; exact absurd hw (by simp)⟩
        · rw [if_neg hk] at hw ⊢
          exact ⟨by decide, fun _ => rfl⟩
    have hchain : List.Chain' noWsPair (clean_text_chars s.data) := by
      apply chain_trimWs
      obtain ⟨t, ht⟩ := List.take_prefix 1000000
        (collapseWs ((trimWs (collapseWs (s.data.map
          (fun c => if c = '\x00' ∨ c = '\r' then ' ' else c)))).map
          (fun c => if isKeptChar c then c else ' ')))
      have hfull := chain_collapseWs ((trimWs (collapseWs (s.data.map
          (fun c => if c = '\x00' ∨ c = '\r' then ' ' else c)))).map
          (fun c => if isKeptChar c then c else ' '))
      rw [← ht] at hfull
      exact (List.chain'_append.mp hfull).1
    have hlen : (clean_text_chars s.data).length ≤ 1000000 := by
      calc (clean_text_chars s.data).length
          ≤ ((collapseWs ((trimWs (collapseWs (s.data.map
              (fun c => if c = '\x00' ∨ c = '\r' then ' ' else c)))).map
              (fun c => if isKeptChar c then c else ' '))).take 1000000).length :=
            length_trimWs _
        _ ≤ 1000000 := List.length_take_le _ _
    refine ⟨hdata ▸ hmem, ?_, ?_, hdata ▸ hchain, ?_, ?_, ?_, rfl⟩
    · intro h
      have := (hmem '\x00' (hdata ▸ h)).1
      exact absurd this (by decide)
    · intro h
      have h2 := (hmem '\r' (hdata ▸ h)).2 (by decide)
      exact absurd h2 (by decide)
    · show (clean_text s).data.length ≤ 1000000
      rw [hdata]
      exact hlen
    · intro c hc
      rw [hdata] at hc
      exact head_trimWs hc
    · intro c hc
      rw [hdata] at hc
      exact getLast_trimWs hc

/-- Witness for `C6_clean_text_spec` at a concrete input. -/
theorem C6_clean_text_witness :
    (isKeptChar 'a' = true ∧ ('a'.isWhitespace = true → 'a' = ' ')) ∧
    'a'.isWhitespace = false ∧ 'b'.isWhitespace = false :=
  ⟨(C6_clean_text_spec "a  b").1 'a' (by decide),
   (C6_clean_text_spec "a  b").2.2.2.2.2.1 'a' (by decide),
   (C6_clean_text_spec "a  b").2.2.2.2.2.2.1 'b' (by decide)⟩

/-- `parse_pdf` (pdf_parser.py lines 33–60).  The two extraction helpers
catch their own exceptions and return `""` (lines 6–31), so their results
are the oracle strings `plumber` and `pymupdf`; a raised `ValueError` is the
`Except.error` branch. -/
def parse_pdf (file_content : List Nat) (plumber pymupdf : String) :
    Except String String :=
  if file_content.isEmpty then
    Except.error "Empty PDF file provided"
  else
    let text := plumber
    let text := if text = "" ∨ text.length < 50 then pymupdf else text
    if text = "" then
      Except.error
        "Could not extract text from PDF. Please ensure the PDF contains readable text."
    else
      Except.ok text

/-- C7: `parse_pdf` keeps the pdfplumber result whenever it has at least 50
characters and the input is non-empty; when that result is empty or shorter
than 50 characters the PyMuPDF result replaces it entirely; it raises
`ValueError` exactly when the input byte string is empty or the finally
selected extraction result is empty, and otherwise returns a non-empty
string. -/
theorem C7_parse_pdf_spec (file_content : List Nat) (plumber pymupdf : String) :
    (file_content.isEmpty = false → 50 ≤ plumber.length →
      parse_pdf file_content plumber pymupdf = Except.ok plumber) ∧
    (file_content.isEmpty = false → (plumber = "" ∨ plumber.length < 50) →
      parse_pdf file_content plumber pymupdf =
        (if pymupdf = "" then
          Except.error
            "Could not extract text from PDF. Please ensure the PDF contains readable text."
         else Except.ok pymupdf)) ∧
    ((∃ e, parse_pdf file_content plumber pymupdf = Except.error e) ↔
      (file_content.isEmpty = true ∨
        (if plumber = "" ∨ plumber.length < 50 then pymupdf else plumber) = "")) ∧
    (∀ t, parse_pdf file_content plumber pymupdf = Except.ok t → t ≠ "") := by
  refine ⟨?_, ?_, ?_, ?_⟩
  · intro hne hlen
    have h1 : ¬(plumber = "" ∨ plumber.length < 50) := by
      rintro (rfl | h)
      · simp at hlen
      · omega
    simp only [parse_pdf, hne, Bool.false_eq_true, if_false, if_neg h1]
    rw [if_neg]
    rintro rfl
    simp at hlen
  · intro hne hcond
    simp only [parse_pdf, hne, Bool.false_eq_true, if_false, if_pos hcond]
  · constructor
    · rintro ⟨e, he⟩
      simp only [parse_pdf] at he
      by_cases h0 : file_content.isEmpty
      · exact Or.inl h0
      · rw [if_neg (by simpa using h0)] at he
        right
        by_cases h2 : (if plumber = "" ∨ plumber.length < 50 then pymupdf else plumber) = ""
        · exact h2
        · rw [if_neg h2] at he
          exact absurd he (by simp)
    · rintro (h0 | h2)
      · exact ⟨"Empty PDF file provided", by simp [parse_pdf, h0]⟩
      · by_cases h0 : file_content.isEmpty
        · exact ⟨"Empty PDF file provided", by simp [parse_pdf, h0]⟩
        · refine ⟨"Could not extract text from PDF. Please ensure the PDF contains readable text.", ?_⟩
          simp only [parse_pdf, if_neg (by simpa using h0 : ¬file_content.isEmpty = true)]
          rw [if_pos h2]
  · intro t ht
    simp only [parse_pdf] at ht
    by_cases h0 : file_content.isEmpty
    · rw [if_pos h0] at ht
      exact absurd ht (by simp)
    · rw [if_neg (by simpa using h0)] at ht
      by_cases h2 : (if plumber = "" ∨ plumber.length < 50 then pymupdf else plumber) = ""
      · rw [if_pos h2] at ht
        exact absurd ht (by simp)
      · rw [if_neg h2] at ht
        injection ht with h3
        subst h3
        exact h2

/-- Witness for `C7_parse_pdf_spec` at a concrete input. -/
theorem C7_parse_pdf_witness :
    parse_pdf [37] "01234567890123456789012345678901234567890123456789" "x" =
      Except.ok "01234567890123456789012345678901234567890123456789" :=
  (C7_parse_pdf_spec [37] "01234567890123456789012345678901234567890123456789" "x").1
    (by decide) (by decide)

/-!
## `src/utils/ai_feedback.py` (lines 11–170)

The provider string models `AI_PROVIDER` (already lowercased, line 9); the
two `Option Feedback` oracles model `get_openai_feedback` /
`get_gemini_feedback`, whose result is `none` whenever the library call
raises, the API key is missing, or the response JSON cannot be parsed
(each helper re-raises and the outer handler at lines 73–75 falls back).
-/

/-- The feedback dictionary shape the module produces. -/
structure Feedback where
  ats_score : ℕ
  missing_skills : List String
  improvements : List String
  rewritten_bullets : List String
  recruiter_summary : String
deriving DecidableEq

/-- `get_default_feedback` (ai_feedback.py lines 152–170). -/
def get_default_feedback (extracted_skills missing_skills : List String) : Feedback :=
  { ats_score := 70
    missing_skills := if missing_skills = [] then [] else missing_skills.take 10
    improvements :=
      ["Add quantifiable achievements with specific metrics (e.g., 'Increased sales by 25%')",
       "Use strong action verbs at the start of each bullet point (e.g., 'Developed', 'Led', 'Implemented')",
       "Include relevant technical skills and tools mentioned in the job description",
       "Optimize your resume format for ATS by using standard section headings",
       "Add a professional summary highlighting your key qualifications and career objectives"]
    rewritten_bullets :=
      ["Developed and implemented scalable web applications using React and Node.js, resulting in 40% faster page load times",
       "Led a cross-functional team of 5 developers to deliver a mission-critical project 2 weeks ahead of schedule",
       "Optimized database queries and reduced server response time by 35%, improving overall system performance"]
    recruiter_summary :=
      "Candidate demonstrates strong technical skills including " ++
        String.intercalate ", " (extracted_skills.take 5) ++
        ". To improve chances, focus on quantifying achievements and addressing skill gaps in " ++
        (if missing_skills = [] then "emerging technologies"
         else String.intercalate ", " (missing_skills.take 3)) ++
        ". Overall profile shows good potential with room for optimization." }

/-- `get_ai_feedback` (ai_feedback.py lines 11–75): dispatch on the provider,
fall back to the default template when the provider is unknown or the call
raises; `missing_skills = None` defaults to the empty list (lines 26–27). -/
def get_ai_feedback (provider : String) (openaiResult geminiResult : Option Feedback)
    (extracted_skills : List String) (missingOpt : Option (List String)) : Feedback :=
  let missing_skills := missingOpt.getD []
  if provider = "openai" then
    match openaiResult with
    | some f => f
    | none => get_default_feedback extracted_skills missing_skills
  else if provider = "gemini" then
    match geminiResult with
    | some f => f
    | none => get_default_feedback extracted_skills missing_skills
  else
    get_default_feedback extracted_skills missing_skills

/-- C5: whenever the configured provider is neither `"openai"` nor
`"gemini"`, or the selected provider call fails, `get_ai_feedback` returns
the deterministic default template: `ats_score` 70, at most the first 10
missing skills, a fixed list of 5 improvements, a fixed list of 3 rewritten
bullets, and a recruiter summary built from the first 5 extracted skills and
the first 3 missing skills. -/
theorem C5_ai_feedback_fallback (provider : String)
    (openaiResult geminiResult : Option Feedback)
    (extracted_skills : List String) (missingOpt : Option (List String))
    (h : (provider ≠ "openai" ∧ provider ≠ "gemini") ∨
         (provider = "openai" ∧ openaiResult = none) ∨
         (provider = "gemini" ∧ geminiResult = none)) :
    get_ai_feedback provider openaiResult geminiResult extracted_skills missingOpt =
      get_default_feedback extracted_skills (missingOpt.getD []) ∧
    (get_ai_feedback provider openaiResult geminiResult extracted_skills
        missingOpt).ats_score = 70 ∧
    (get_ai_feedback provider openaiResult geminiResult extracted_skills
        missingOpt).missing_skills = (missingOpt.getD []).take 10 ∧
    (get_ai_feedback provider openaiResult geminiResult extracted_skills
        missingOpt).improvements.length = 5 ∧
    (get_ai_feedback provider openaiResult geminiResult extracted_skills
        missingOpt).rewritten_bullets.length = 3 ∧
    (get_ai_feedback provider openaiResult geminiResult extracted_skills
        missingOpt).recruiter_summary =
      "Candidate demonstrates strong technical skills including " ++
        String.intercalate ", " (extracted_skills.take 5) ++
        ". To improve chances, focus on quantifying achievements and addressing skill gaps in " ++
        (if missingOpt.getD [] = [] then "emerging technologies"
         else String.intercalate ", " ((missingOpt.getD []).take 3)) ++
        ". Overall profile shows good potential with room for optimization." := by
  have hdef : get_ai_feedback provider openaiResult geminiResult extracted_skills
      missingOpt = get_default_feedback extracted_skills (missingOpt.getD []) := by
    rcases h with ⟨h1, h2⟩ | ⟨rfl, rfl⟩ | ⟨rfl, rfl⟩
    · simp [get_ai_feedback, h1, h2]
    · simp [get_ai_feedback]
    · simp [get_ai_feedback]
  refine ⟨hdef, ?_, ?_, ?_, ?_, ?_⟩ <;> rw [hdef]
  · rfl
  · show (if missingOpt.getD [] = [] then [] else (missingOpt.getD []).take 10) = _
    split_ifs with hm
    · rw [hm]
      rfl
    · rfl
  · rfl
  · rfl
  · rfl

/-- Witness for `C5_ai_feedback_fallback` at a concrete input. -/
theorem C5_ai_feedback_witness :
    get_ai_feedback "disabled" none none ["Python"] (some ["docker", "aws"]) =
      get_default_feedback ["Python"] ["docker", "aws"] ∧
    (get_ai_feedback "disabled" none none ["Python"] (some ["docker", "aws"])).ats_score = 70 :=
  ⟨(C5_ai_feedback_fallback "disabled" none none ["Python"] (some ["docker", "aws"])
      (Or.inl (by decide))).1,
   (C5_ai_feedback_fallback "disabled" none none ["Python"] (some ["docker", "aws"])
      (Or.inl (by decide))).2.1⟩

/-!
## `src/models.py` (lines 8–66)

Relational state of the four ORM tables.  The creation routes
(`resume.py` line 74, `jobs.py`, `auth.py`) only insert rows whose foreign
keys reference existing rows and whose primary key is fresh; deletion
follows the `cascade="all, delete-orphan"` declarations: deleting a `User`
deletes its `Resume`s (models.py line 18) and, transitively, their
`JobMatch`es (line 37); deleting a `Resume` deletes its `JobMatch`es
(line 37); deleting a `Job` deletes its `JobMatch`es (line 50).
-/

/-- Database state: user ids, resume rows `(id, user_id)`, job ids, and
job-match rows `(id, resume_id, job_id)`. -/
structure DBState where
  users : Finset ℕ
  resumes : Finset (ℕ × ℕ)
  jobs : Finset ℕ
  jobMatches : Finset (ℕ × ℕ × ℕ)
deriving DecidableEq

/-- The create/delete operations of the routes over the four tables. -/
inductive DBOp where
  | createUser (uid : ℕ)
  | createResume (rid uid : ℕ)
  | createJob (jid : ℕ)
  | createJobMatch (mid rid jid : ℕ)
  | deleteUser (uid : ℕ)
  | deleteResume (rid : ℕ)
  | deleteJob (jid : ℕ)
deriving DecidableEq

/-- One operation applied to a state.  Creations require a fresh primary key
and existing foreign keys (otherwise the database rejects the insert and the
state is unchanged); deletions cascade exactly as declared in models.py. -/
def dbStep (s : DBState) : DBOp → DBState
  | DBOp.createUser uid =>
    if uid ∈ s.users then s else { s with users := insert uid s.users }
  | DBOp.createResume rid uid =>
    if uid ∈ s.users ∧ rid ∉ s.resumes.image Prod.fst then
      { s with resumes := insert (rid, uid) s.resumes }
    else s
  | DBOp.createJob jid =>
    if jid ∈ s.jobs then s else { s with jobs := insert jid s.jobs }
  | DBOp.createJobMatch mid rid jid =>
    if rid ∈ s.resumes.image Prod.fst ∧ jid ∈ s.jobs ∧
        mid ∉ s.jobMatches.image Prod.fst then
      { s with jobMatches := insert (mid, rid, jid) s.jobMatches }
    else s
  | DBOp.deleteUser uid =>
    let deadResumes := (s.resumes.filter (fun r => r.2 = uid)).image Prod.fst
    { s with
      users := s.users.erase uid
      resumes := s.resumes.filter (fun r => r.2 ≠ uid)
      jobMatches := s.jobMatches.filter (fun m => m.2.1 ∉ deadResumes) }
  | DBOp.deleteResume rid =>
    { s with
      resumes := s.resumes.filter (fun r => r.1 ≠ rid)
      jobMatches := s.jobMatches.filter (fun m => m.2.1 ≠ rid) }
  | DBOp.deleteJob jid =>
    { s with
      jobs := s.jobs.erase jid
      jobMatches := s.jobMatches.filter (fun m => m.2.2 ≠ jid) }

/-- A sequence of operations applied to a state. -/
def dbRun (s : DBState) (ops : List DBOp) : DBState := ops.foldl dbStep s

/-- The empty database. -/
def dbInit : DBState := { users := ∅, resumes := ∅, jobs := ∅, jobMatches := ∅ }

/-- Referential integrity: every resume references an existing user; every
job match references an existing resume and an existing job. -/
def dbInv (s : DBState) : Prop :=
  (∀ r ∈ s.resumes, r.2 ∈ s.users) ∧
  (∀ m ∈ s.jobMatches, (∃ r ∈ s.resumes, r.1 = m.2.1) ∧ m.2.2 ∈ s.jobs)

theorem dbStep_preserves (s : DBState) (op : DBOp) (h : dbInv s) :
    dbInv (dbStep s op) := by
  obtain ⟨hr, hm⟩ := h
  cases op with
  | createUser uid =>
    by_cases hu : uid ∈ s.users
    · simpa [dbStep, hu] using ⟨hr, hm⟩
    · refine ⟨?_, ?_⟩ <;> simp only [dbStep, if_neg hu]
      · intro r hrm
        exact Finset.mem_insert_of_mem (hr r hrm)
      · exact hm
  | createResume rid uid =>
    by_cases hc : uid ∈ s.users ∧ rid ∉ s.resumes.image Prod.fst
    · refine ⟨?_, ?_⟩ <;> simp only [dbStep, if_pos hc]
      · intro r hrm
        rcases Finset.mem_insert.mp hrm with rfl | hrm'
        · exact hc.1
        · exact hr r hrm'
      · intro m hmm
        obtain ⟨⟨r, hr1, hr2⟩, hj⟩ := hm m hmm
        exact ⟨⟨r, Finset.mem_insert_of_mem hr1, hr2⟩, hj⟩
    · simpa [dbStep, if_neg hc] using ⟨hr, hm⟩
  | createJob jid =>
    by_cases hj : jid ∈ s.jobs
    · simpa [dbStep, hj] using ⟨hr, hm⟩
    · refine ⟨?_, ?_⟩ <;> simp only [dbStep, if_neg hj]
      · exact hr
      · intro m hmm
        obtain ⟨he, hj2⟩ := hm m hmm
        exact ⟨he, Finset.mem_insert_of_mem hj2⟩
  | createJobMatch mid rid jid =>
    by_cases hc : rid ∈ s.resumes.image Prod.fst ∧ jid ∈ s.jobs ∧
        mid ∉ s.jobMatches.image Prod.fst
    · refine ⟨?_, ?_⟩ <;> simp only [dbStep, if_pos hc]
      · exact hr
      · intro m hmm
        rcases Finset.mem_insert.mp hmm with rfl | hmm'
        · obtain ⟨r, hr1, hr2⟩ := Finset.mem_image.mp hc.1
          exact ⟨⟨r, hr1, hr2⟩, hc.2.1⟩
        · exact hm m hmm'
    · simpa [dbStep, if_neg hc] using ⟨hr, hm⟩
  | deleteUser uid =>
    refine ⟨?_, ?_⟩
    · intro r hrm
      simp only [dbStep, Finset.mem_filter] at hrm
      obtain ⟨hr1, hr2⟩ := hrm
      simp only [dbStep]
      exact Finset.mem_erase.mpr ⟨by simpa using hr2, hr r hr1⟩
    · intro m hmm
      simp only [dbStep, Finset.mem_filter] at hmm
      obtain ⟨hm1, hm2⟩ := hmm
      obtain ⟨⟨r, hr1, hr2⟩, hj⟩ := hm m hm1
      refine ⟨⟨r, ?_, hr2⟩, hj⟩
      simp only [dbStep, Finset.mem_filter]
      refine ⟨hr1, ?_⟩
      intro hru
      apply hm2
      simp only [Finset.mem_image]
      exact ⟨r, Finset.mem_filter.mpr ⟨hr1, by simpa using hru⟩, by rw [hr2]⟩
  | deleteResume rid =>
    refine ⟨?_, ?_⟩
    · intro r hrm
      simp only [dbStep, Finset.mem_filter] at hrm
      exact hr r hrm.1
    · intro m hmm
      simp only [dbStep, Finset.mem_filter] at hmm
      obtain ⟨hm1, hm2⟩ := hmm
      obtain ⟨⟨r, hr1, hr2⟩, hj⟩ := hm m hm1
      refine ⟨⟨r, ?_, hr2⟩, hj⟩
      simp only [dbStep, Finset.mem_filter]
      exact ⟨hr1, by simp [hr2, by simpa using hm2]⟩
  | deleteJob jid =>
    refine ⟨?_, ?_⟩
    · intro r hrm
      exact hr r hrm
    · intro m hmm
      simp only [dbStep, Finset.mem_filter] at hmm
      obtain ⟨hm1, hm2⟩ := hmm
      obtain ⟨he, hj⟩ := hm m hm1
      exact ⟨he, Finset.mem_erase.mpr ⟨by simpa using hm2, hj⟩⟩

/-- C8: after any sequence of create/delete operations starting from the
empty database, referential integrity holds — no resume references a
deleted user, and no job match references a deleted resume or a deleted
job (the declared cascades delete dependents together with their owner). -/
theorem C8_cascade_integrity (ops : List DBOp) : dbInv (dbRun dbInit ops) := by
  suffices h : ∀ (s : DBState), dbInv s → dbInv (dbRun s ops) by
    refine h dbInit ⟨?_, ?_⟩ <;> simp [dbInit]
  induction ops with
  | nil => intro s hs; exact hs
  | cons op rest ih =>
    intro s hs
    exact ih (dbStep s op) (dbStep_preserves s op hs)
